import Mathlib

/-!
Job coordination engine of `api/api.go`

A shallow embedding of the HTTP handlers of `src/api/api.go` (`createJob`,
`createJobHelper`, `jobStatus`, `initWorker`, `writeChunk`) together with the
properties of the job registry, the partition assigner, the chunk merge and the
completion monitor.

Conventions of the embedding.

* Go `int` is a 64-bit two's complement integer: it is an `Int` here and every
  arithmetic result is reduced by `wrapInt64`; `int32(x)` is `wrapInt32`.
* Go `string` values are `String`, a `[]byte` is a `List UInt8`.
* The global `jobDetailsMap` and the files under `/storage/output` form the
  `Server` state, passed explicitly.  The disk is a map from path strings to
  contents on which every operation succeeds: it stands for the directory
  `/storage/output`, present and writable, and for the files named in it by
  identifiers such as `generateUid` returns (`isGeneratedUid`).  An identifier
  with a path separator names a file of another directory or another name of
  the same file, and is outside this map.
* A handler returns a `Result`: the state afterwards, the effects it performed
  in order, and the panic that ended it, if any.
* Writes to the standard output (`fmt.Printf`) are not recorded.
-/

namespace Profiler

/-! ## Machine integers -/

/-- Reduction of an integer to the range of a 64-bit two's complement `int`. -/
def wrapInt64 (x : Int) : Int := (x + 2 ^ 63) % 2 ^ 64 - 2 ^ 63

/-- The conversion `int32(x)`: reduction to 32-bit two's complement. -/
def wrapInt32 (x : Int) : Int := (x + 2 ^ 31) % 2 ^ 32 - 2 ^ 31

/-- Largest value of the Go type `int`. -/
def maxInt64 : Int := 2 ^ 63 - 1

/-- Smallest value of the Go type `int`. -/
def minInt64 : Int := -(2 ^ 63)

/-! ## Data model -/

abbrev Bytes := List UInt8

/-- The struct `WorkerSpecs`, the JSON answer of `/init`. -/
structure WorkerSpecs where
  WorkerId : Int
  TotalWorkers : Int
  InputFolderPath : String
  deriving DecidableEq, Repr

/-- The struct `JobDetails` (its embedded mutex has no sequential content). -/
structure JobDetails where
  JobName : String
  InputFolderPath : String
  OutputFolderPath : String
  TotalWorkers : Int
  RunningWorkers : Int
  MapperUrl : String
  uid : String
  imageUrl : String
  completedWorkers : Int
  accessToken : String
  deriving DecidableEq, Repr

/-- One entry of `JobStatus.Conditions`. -/
structure JobCondition where
  /-- The field named Type in the source (a reserved word here). -/
  CondType : String
  Status : String
  deriving DecidableEq, Repr

/-- The part of `batchv1.JobStatus` the monitor reads. -/
structure JobStatus where
  Conditions : List JobCondition
  Active : Int
  Succeeded : Int
  Failed : Int
  deriving DecidableEq, Repr

/-- The `batchv1.Job` built by `createJobHelper` (fields it sets) and received
from the watch (name and status). -/
structure BatchJob where
  Name : String
  ContainerName : String
  Image : String
  Args : List String
  Env : List (String × String)
  RestartPolicy : String
  Completions : Int
  Parallelism : Int
  BackoffLimit : Int
  Status : JobStatus
  deriving DecidableEq, Repr

/-- One event of the watch channel.  The loop asserts `event.Object.(*batchv1.Job)`;
the events modelled are those that carry a job (an event with another object
makes that assertion panic). -/
structure WatchEvent where
  Object : BatchJob
  deriving DecidableEq, Repr

/-- What a handler does to the outside, in order. -/
inductive Effect where
  | setHeader (key value : String)
  | httpError (msg : String) (code : Nat)
  | write (body : String)
  | flush
  | encodeJSON (ws : WorkerSpecs)
  | jobsCreate (job : BatchJob)
  | uploadToCDrive (localPath cDrivePath accessToken : String)
  deriving DecidableEq, Repr

/-- The process state: `jobDetailsMap` and the files on disk. -/
structure Server where
  jobDetailsMap : String → Option JobDetails
  files : String → Option Bytes

/-- An incoming request as the handlers read it. -/
structure Request where
  /-- The field `r.Method`. -/
  Method : String
  /-- Whether `r.ParseForm()` / `r.ParseMultipartForm` returns no error. -/
  parseOk : Bool
  /-- The call `r.Header.Get`. -/
  Header : String → String
  /-- The call `r.PostForm.Get`. -/
  PostForm : String → String
  /-- The call `r.FormFile`, fully read; `none` when it returns an error. -/
  FormFile : String → Option Bytes

/-- Outcome of one handler invocation. -/
structure Result where
  server : Server
  out : List Effect
  panic : Option String

/-- Map assignment `m[k] = v`. -/
def mapSet {α : Type} (m : String → Option α) (k : String) (v : α) : String → Option α :=
  fun k' => if k' = k then some v else m k'

/-- The state before any request: `main` creates an empty map. -/
def Server.init : Server := { jobDetailsMap := fun _ => none, files := fun _ => none }

/-! ## Partition assigner: `initWorker` -/

/-- The handler `initWorker` (api.go, lines 185-204). -/
def initWorker (s : Server) (r : Request) : Result :=
  if r.Method = "POST" then
    if r.parseOk = false then
      { server := s, out := [Effect.httpError "Could not parse form." 400], panic := none }
    else
      let uid := r.PostForm "uid"
      let hdr := Effect.setHeader "Content-Type" "application/json"
      match s.jobDetailsMap uid with
      | none =>
        -- jobDetails is nil: jobDetails.Lock() dereferences it
        { server := s, out := [hdr], panic := some "invalid memory address or nil pointer dereference" }
      | some jobDetails =>
        let workerSpecs : WorkerSpecs :=
          { WorkerId := jobDetails.RunningWorkers
            TotalWorkers := jobDetails.TotalWorkers
            InputFolderPath := jobDetails.InputFolderPath }
        let jobDetails' := { jobDetails with RunningWorkers := wrapInt64 (jobDetails.RunningWorkers + 1) }
        { server := { s with jobDetailsMap := mapSet s.jobDetailsMap uid jobDetails' }
          out := [hdr, Effect.encodeJSON workerSpecs]
          panic := none }
  else
    { server := s, out := [], panic := none }

/-- A well-formed `POST /init` request for job `uid`. -/
def initRequest (uid : String) : Request :=
  { Method := "POST"
    parseOk := true
    Header := fun _ => ""
    PostForm := fun k => if k = "uid" then uid else ""
    FormFile := fun _ => none }

/-- The results of `k` requests `r` served one after the other by handler `h`,
and the state after the last. -/
def serveSeq (h : Server → Request → Result) (r : Request) : Nat → Server → List Result × Server
  | 0, s => ([], s)
  | k + 1, s =>
    let res := h s r
    let rest := serveSeq h r k res.server
    (res :: rest.1, rest.2)

/-- The answer of a successful `/init` call that hands out index `i`. -/
def initAnswer (jd : JobDetails) (i : Int) : List Effect :=
  [ Effect.setHeader "Content-Type" "application/json",
    Effect.encodeJSON { WorkerId := i, TotalWorkers := jd.TotalWorkers, InputFolderPath := jd.InputFolderPath } ]

/-- The value of the counter `RunningWorkers` of job `uid`. -/
def counter (s : Server) (uid : String) : Option Int :=
  (s.jobDetailsMap uid).map JobDetails.RunningWorkers

/-! ## Chunk merge engine: `writeChunk` -/

/-- The call `bytes.IndexByte(b, c)`: the index of the first `c` in `b`, -1 when
there is none. -/
def IndexByte : Bytes → UInt8 → Int
  | [], _ => -1
  | x :: xs, c =>
    if x = c then 0
    else if IndexByte xs c < 0 then -1 else IndexByte xs c + 1

/-- The slice expression `b[i:]` for an index between 0 and the length. -/
def sliceFrom (b : Bytes) (i : Int) : Bytes := b.drop i.toNat

/-- The path of the merged artifact of job `uid`. -/
def artifactPath (uid : String) : String := "/storage/output/" ++ uid ++ ".csv"

/-- The alphabet of `generateUid` (api.go, line 59). -/
def letters : List Char := "abcdefghijklmnopqrstuvwxyz0123456789".toList

/-- The shape of the identifiers `generateUid` returns (api.go, lines 57-65):
ten characters of `letters`. -/
def isGeneratedUid (uid : String) : Bool :=
  uid.length == 10 && uid.toList.all (fun c => letters.contains c)

/-- Opening with `O_APPEND|O_CREATE|O_WRONLY` and writing `b`, for a path that
names a file directly in the output directory: the open succeeds, creating the
file when absent, and the write adds `b` at the end. -/
def appendFile (files : String → Option Bytes) (path : String) (b : Bytes) : String → Option Bytes :=
  mapSet files path ((files path).getD [] ++ b)

/-- The handler `writeChunk` (api.go, lines 206-228). -/
def writeChunk (s : Server) (r : Request) : Result :=
  if r.Method = "POST" then
    if r.parseOk = false then
      { server := s, out := [Effect.httpError "Could not parse form." 400], panic := none }
    else
      match r.FormFile "chunk" with
      | none => { server := s, out := [], panic := some "http: no such file" }
      | some chunkBytes =>
        let uid := r.PostForm "uid"
        let filePath := "/storage/output/" ++ uid ++ ".csv"
        let chunkBytes :=
          if (s.files filePath).isSome then sliceFrom chunkBytes (IndexByte chunkBytes 10 + 1)
          else chunkBytes
        { server := { s with files := appendFile s.files filePath chunkBytes }
          out := []
          panic := none }
  else
    { server := s, out := [], panic := none }

/-- A well-formed `POST /write-chunk` request: file field `chunk`, text field `uid`. -/
def chunkRequest (uid : String) (chunk : Bytes) : Request :=
  { Method := "POST"
    parseOk := true
    Header := fun _ => ""
    PostForm := fun k => if k = "uid" then uid else ""
    FormFile := fun k => if k = "chunk" then some chunk else none }

/-- The results of the requests `rs` served one after the other by handler `h`,
and the state after the last. -/
def serveAll (h : Server → Request → Result) : List Request → Server → List Result × Server
  | [], s => ([], s)
  | r :: rs, s =>
    let res := h s r
    let rest := serveAll h rs res.server
    (res :: rest.1, rest.2)

/-- The stripping rule in the words of the specification: everything up to and
including the first newline is removed; a chunk without a newline has no such
part. -/
def dropHeaderLine (chunk : Bytes) : Bytes :=
  if (10 : UInt8) ∈ chunk then (chunk.dropWhile (fun x => x != 10)).drop 1 else chunk

/-- The bytes of an ASCII text. -/
def ascii (s : String) : Bytes := s.toList.map (fun c => c.toNat.toUInt8)

/-! ## Concurrent submissions

`net/http` serves every request on its own goroutine.  `writeChunk` takes no
lock, so between its three file-system calls (`os.Stat`, `os.OpenFile`,
`file.Write`) another request may run.  An in-flight request is a `Submission`;
a schedule names, step by step, the request that advances. -/

/-- Where an in-flight `writeChunk` request stands. -/
inductive Pc where
  /-- The chunk is read, `os.Stat` is next. -/
  | beforeStat
  /-- The existence check is done and `toWrite` is what `file.Write` will get;
  `os.OpenFile` is next. -/
  | beforeOpen (toWrite : Bytes)
  /-- The file is open, `file.Write` is next. -/
  | beforeWrite (toWrite : Bytes)
  /-- The handler returned. -/
  | returned
  deriving DecidableEq, Repr

/-- One in-flight `writeChunk` request. -/
structure Submission where
  uid : String
  chunk : Bytes
  pc : Pc
  deriving DecidableEq, Repr

/-- The effect of `os.OpenFile` with `O_CREATE` on the disk: an absent file is
created empty. -/
def createFile (files : String → Option Bytes) (path : String) : String → Option Bytes :=
  match files path with
  | some _ => files
  | none => mapSet files path []

/-- One step of one request: lines 220-223 (`os.Stat` and the slice), then line
224 (`os.OpenFile`), then line 226 (`file.Write`, which adds at the end of the
file as it is at that moment). -/
def Submission.step (files : String → Option Bytes) (t : Submission) :
    (String → Option Bytes) × Submission :=
  match t.pc with
  | Pc.beforeStat =>
    let filePath := "/storage/output/" ++ t.uid ++ ".csv"
    let chunkBytes :=
      if (files filePath).isSome then sliceFrom t.chunk (IndexByte t.chunk 10 + 1)
      else t.chunk
    (files, { t with pc := Pc.beforeOpen chunkBytes })
  | Pc.beforeOpen toWrite =>
    (createFile files ("/storage/output/" ++ t.uid ++ ".csv"), { t with pc := Pc.beforeWrite toWrite })
  | Pc.beforeWrite toWrite =>
    (appendFile files ("/storage/output/" ++ t.uid ++ ".csv") toWrite, { t with pc := Pc.returned })
  | Pc.returned => (files, t)

/-- Runs a schedule: each entry is the index of the request that takes its next
step. -/
def runSchedule : List Nat → (String → Option Bytes) × List Submission →
    (String → Option Bytes) × List Submission
  | [], st => st
  | i :: rest, (files, ts) =>
    match ts.get? i with
    | none => runSchedule rest (files, ts)
    | some t =>
      let st := t.step files
      runSchedule rest (st.1, ts.set i st.2)

/-- Number of occurrences of the byte string `pat` in `b`. -/
def countOccurrences (pat : Bytes) : Bytes → Nat
  | [] => if pat = [] then 1 else 0
  | x :: xs => (if pat.isPrefixOf (x :: xs) then 1 else 0) + countOccurrences pat xs

/-! ## Job launcher: `createJobHelper` -/

/-- What the handlers get from outside the process. -/
structure Env where
  /-- The value of `os.Getenv("COLUMBUS_USERNAME")`. -/
  username : String
  /-- The value returned by `generateUid()`. -/
  uid : String
  /-- The call `json.Marshal` on a job status. -/
  marshal : JobStatus → String
  /-- Whether `rest.InClusterConfig` and `kubernetes.NewForConfig` succeed. -/
  clusterConfigOk : Bool
  /-- Whether `jobsClient.Create` succeeds. -/
  createOk : Bool
  /-- Whether `Watch` succeeds. -/
  watchOk : Bool
  /-- The events delivered on the watch channel until it is closed. -/
  events : List WatchEvent
  /-- Whether the exchange with the storage service succeeds. -/
  cdriveOk : Bool

/-- The function `createJobHelper` (api.go, lines 100-146): the effects and the
panic, if any. -/
def createJobHelper (env : Env) (jobDetails : JobDetails) : List Effect × Option String :=
  if env.clusterConfigOk = false then ([], some "cluster configuration")
  else
    let nWorkers := wrapInt32 jobDetails.TotalWorkers
    let retries := wrapInt32 5
    let job : BatchJob :=
      { Name := jobDetails.JobName
        ContainerName := jobDetails.JobName
        Image := jobDetails.imageUrl
        Args := ["-u", jobDetails.MapperUrl, "-i", jobDetails.uid]
        Env := [("COLUMBUS_ACCESS_TOKEN", jobDetails.accessToken)]
        RestartPolicy := "Never"
        Completions := nWorkers
        Parallelism := nWorkers
        BackoffLimit := retries
        Status := { Conditions := [], Active := 0, Succeeded := 0, Failed := 0 } }
    if env.createOk = false then ([Effect.jobsCreate job], some "jobs create")
    else ([Effect.jobsCreate job], none)

/-! ## Completion monitor: `jobStatus` -/

/-- The function `uploadToCDrive` (api.go, lines 230-269): the call is recorded;
it panics when the local file cannot be opened or the exchange fails. -/
def uploadToCDrive (env : Env) (s : Server) (localPath cDrivePath accessToken : String) :
    List Effect × Option String :=
  match s.files localPath with
  | none => ([Effect.uploadToCDrive localPath cDrivePath accessToken], some "open: no such file or directory")
  | some _ =>
    if env.cdriveOk = false then
      ([Effect.uploadToCDrive localPath cDrivePath accessToken], some "upload")
    else ([Effect.uploadToCDrive localPath cDrivePath accessToken], none)

/-- The test `len(conditions) > 0 && conditions[0].Type == "Complete"`. -/
def firstIsComplete (conditions : List JobCondition) : Bool :=
  match conditions with
  | [] => false
  | c :: _ => c.CondType == "Complete"

/-- The loop `for event := range ch` of `jobStatus` (lines 173-182). -/
def watchLoop (env : Env) (s : Server) (uid : String) (jobDetails : Option JobDetails) :
    List WatchEvent → List Effect × Option String
  | [] => ([], none)
  | event :: rest =>
    let jobObject := event.Object
    let forwarded := [Effect.write (env.marshal jobObject.Status ++ "\n"), Effect.flush]
    if firstIsComplete jobObject.Status.Conditions then
      match jobDetails with
      | none => (forwarded, some "invalid memory address or nil pointer dereference")
      | some jd =>
        let up := uploadToCDrive env s ("/storage/output/" ++ uid ++ ".csv") jd.OutputFolderPath jd.accessToken
        (forwarded ++ up.1, up.2)
    else
      let r := watchLoop env s uid jobDetails rest
      (forwarded ++ r.1, r.2)

/-- The headers `jobStatus` sets before it streams. -/
def streamHeaders : List Effect :=
  [ Effect.setHeader "Content-Type" "text/event-stream",
    Effect.setHeader "Cache-Control" "no-cache",
    Effect.setHeader "Connection" "keep-alive",
    Effect.setHeader "Access-Control-Allow-Origin" "*" ]

/-- The function `jobStatus` (api.go, lines 148-183), for a response writer that
is an `http.Flusher`. -/
def jobStatus (env : Env) (s : Server) (uid : String) : List Effect × Option String :=
  if env.clusterConfigOk = false then (streamHeaders, some "cluster configuration")
  else
    let jobDetails := s.jobDetailsMap uid
    if env.watchOk = false then (streamHeaders, some "watch")
    else
      let r := watchLoop env s uid jobDetails env.events
      (streamHeaders ++ r.1, r.2)

/-- The terminal condition in the words of the specification: the status
reports a condition of type "Complete" as the first entry of its condition
list. -/
def reportsComplete (e : WatchEvent) : Bool :=
  e.Object.Status.Conditions.head?.map JobCondition.CondType == some "Complete"

/-- The events the monitor handles, in the words of the specification: those up
to and including the first terminal one, all of them when there is none. -/
def uptoFirstTerminal (events : List WatchEvent) : List WatchEvent :=
  events.takeWhile (fun e => !reportsComplete e)
    ++ (events.find? (fun e => reportsComplete e)).toList

/-- The lines forwarded for a list of events: one write and one flush each. -/
def forwardedLines (env : Env) (events : List WatchEvent) : List Effect :=
  (events.map (fun e => [Effect.write (env.marshal e.Object.Status ++ "\n"), Effect.flush])).flatten

/-- Whether an effect is a call of `uploadToCDrive`. -/
def Effect.isUpload : Effect → Bool
  | Effect.uploadToCDrive _ _ _ => true
  | _ => false

/-- Whether an effect is an error response. -/
def Effect.isError : Effect → Bool
  | Effect.httpError _ _ => true
  | _ => false

/-! ## Job submission: `createJob` -/

/-- The error values of `strconv`. -/
inductive NumError where
  | ErrSyntax
  | ErrRange
  deriving DecidableEq, Repr

/-- The largest `uint64`. -/
def maxUint64 : Nat := 2 ^ 64 - 1

/-- The digit loop of `strconv.ParseUint(s, 10, 64)`, from accumulator `n`. -/
def parseUintLoop : List Char → Nat → Nat × Option NumError
  | [], n => (n, none)
  | c :: cs, n =>
    if 48 ≤ c.toNat ∧ c.toNat ≤ 57 then
      let d := c.toNat - 48
      if n ≥ maxUint64 / 10 + 1 then (maxUint64, some NumError.ErrRange)
      else
        let n1 := (n * 10 + d) % 2 ^ 64
        if n1 < n * 10 ∨ n1 > maxUint64 then (maxUint64, some NumError.ErrRange)
        else parseUintLoop cs n1
    else (0, some NumError.ErrSyntax)

/-- The call `strconv.ParseUint(s, 10, 64)` of the Go standard library. -/
def ParseUint (s : List Char) : Nat × Option NumError :=
  if s = [] then (0, some NumError.ErrSyntax) else parseUintLoop s 0

/-- The call `strconv.ParseInt(s, 10, 0)` of the Go standard library. -/
def ParseInt (s : List Char) : Int × Option NumError :=
  match s with
  | [] => (0, some NumError.ErrSyntax)
  | c :: cs =>
    let neg := decide (c = '-')
    let digits := if c = '+' ∨ c = '-' then cs else c :: cs
    let r := ParseUint digits
    if r.2 = some NumError.ErrSyntax then (0, some NumError.ErrSyntax)
    else if neg = false ∧ r.1 ≥ 2 ^ 63 then (2 ^ 63 - 1, some NumError.ErrRange)
    else if neg = true ∧ r.1 > 2 ^ 63 then (-(2 ^ 63), some NumError.ErrRange)
    else (if neg then wrapInt64 (-(wrapInt64 r.1)) else wrapInt64 r.1, none)

/-- The digit loop of the fast path of `strconv.Atoi`. -/
def atoiFastLoop : List Char → Int → Option Int
  | [], n => some n
  | c :: cs, n =>
    if 48 ≤ c.toNat ∧ c.toNat ≤ 57 then atoiFastLoop cs (wrapInt64 (n * 10 + (c.toNat - 48 : Nat)))
    else none

/-- The call `strconv.Atoi(s)` of the Go standard library, for 64-bit `int`:
the value and the error. -/
def Atoi (s : String) : Int × Option NumError :=
  if 0 < s.utf8ByteSize ∧ s.utf8ByteSize < 19 then
    match s.toList with
    | [] => (0, some NumError.ErrSyntax)
    | c :: cs =>
      let digits := if c = '-' ∨ c = '+' then cs else c :: cs
      if digits = [] then (0, some NumError.ErrSyntax)
      else
        match atoiFastLoop digits 0 with
        | none => (0, some NumError.ErrSyntax)
        | some n => (if c = '-' then wrapInt64 (-n) else n, none)
  else ParseInt s.toList

/-- Splitting a character sequence at every occurrence of `sep`. -/
def splitChars (sep : Char) : List Char → List (List Char)
  | [] => [[]]
  | c :: cs =>
    if c = sep then [] :: splitChars sep cs
    else
      match splitChars sep cs with
      | [] => [[c]]
      | t :: ts => (c :: t) :: ts

/-- The call `strings.Split(s, sep)` of the Go standard library for a separator
of one character. -/
def Split (s : String) (sep : Char) : List String :=
  (splitChars sep s.toList).map String.mk

/-- The character of the decimal digit `d`. -/
def digitChar (d : Nat) : Char := Char.ofNat (48 + d)

/-- The number written by the decimal digits `ds`, most significant first. -/
def decimalValue (ds : List Nat) : Nat := ds.foldl (fun acc d => acc * 10 + d) 0

/-- The handler `createJob` (api.go, lines 67-98). -/
def createJob (env : Env) (s : Server) (r : Request) : Result :=
  if r.Method = "POST" then
    if r.parseOk = false then
      { server := s, out := [Effect.httpError "Could not parse form." 400], panic := none }
    else
      let authUrl := r.Header "Authorization"
      let tokens := Split authUrl ' '
      match tokens.get? 1 with
      | none => { server := s, out := [], panic := some "index out of range [1]" }
      | some accessToken =>
        let imageUrl := r.PostForm "imageUrl"
        let inputFolderPath := r.PostForm "inputFolderPath"
        let outputFolderPath := r.PostForm "outputFolderPath"
        let workers := (Atoi (r.PostForm "workers")).1
        let uid := env.uid
        let jobName := "profilefunc-" ++ env.username ++ "-" ++ uid
        let jobDetails : JobDetails :=
          { JobName := jobName
            InputFolderPath := inputFolderPath
            OutputFolderPath := outputFolderPath
            TotalWorkers := workers
            RunningWorkers := 0
            MapperUrl := "http://profiler-" ++ env.username ++ "/"
            uid := uid
            imageUrl := imageUrl
            completedWorkers := 0
            accessToken := accessToken }
        let s1 : Server := { s with jobDetailsMap := mapSet s.jobDetailsMap uid jobDetails }
        let launched := createJobHelper env jobDetails
        match launched.2 with
        | some p => { server := s1, out := launched.1, panic := some p }
        | none =>
          let watched := jobStatus env s1 uid
          { server := s1, out := launched.1 ++ watched.1, panic := watched.2 }
  else
    { server := s, out := [], panic := none }

/-- A `POST /create` request with the given Authorization header and form. -/
def createRequest (authorization imageUrl inputFolderPath outputFolderPath workers : String) : Request :=
  { Method := "POST"
    parseOk := true
    Header := fun k => if k = "Authorization" then authorization else ""
    PostForm := fun k =>
      if k = "imageUrl" then imageUrl
      else if k = "inputFolderPath" then inputFolderPath
      else if k = "outputFolderPath" then outputFolderPath
      else if k = "workers" then workers
      else ""
    FormFile := fun _ => none }

/-! ## Fixtures -/

/-- A job record with two workers, as `createJob` registers it. -/
def demoJob : JobDetails :=
  { JobName := "profilefunc-alice-j1"
    InputFolderPath := "users/alice/in"
    OutputFolderPath := "users/alice/out"
    TotalWorkers := 2
    RunningWorkers := 0
    MapperUrl := "http://profiler-alice/"
    uid := "j1"
    imageUrl := "docker.io/alice/fn"
    completedWorkers := 0
    accessToken := "tok" }

/-- The state in which `demoJob` is the only registered job and no artifact exists. -/
def demoServer : Server :=
  { jobDetailsMap := mapSet Server.init.jobDetailsMap "j1" demoJob, files := Server.init.files }

/-- A job status whose condition list is the given one. -/
def statusWith (conditions : List JobCondition) : JobStatus :=
  { Conditions := conditions, Active := 0, Succeeded := 0, Failed := 0 }

/-- A watch event for the workload `name` with the given conditions. -/
def eventOf (name : String) (conditions : List JobCondition) : WatchEvent :=
  { Object :=
      { Name := name
        ContainerName := name
        Image := ""
        Args := []
        Env := []
        RestartPolicy := "Never"
        Completions := 1
        Parallelism := 1
        BackoffLimit := 5
        Status := statusWith conditions } }

/-- A serialisation of a job status: the types of its conditions. -/
def demoMarshal (st : JobStatus) : String :=
  String.intercalate "," (st.Conditions.map JobCondition.CondType)

/-- An environment in which every collaborator answers and the watch delivers
`events`. -/
def demoEnv (events : List WatchEvent) : Env :=
  { username := "alice"
    uid := "j1"
    marshal := demoMarshal
    clusterConfigOk := true
    createOk := true
    watchOk := true
    events := events
    cdriveOk := true }

/-! ## Properties of the partition assigner -/

theorem wrapInt64_eq {x : Int} (h1 : minInt64 ≤ x) (h2 : x ≤ maxInt64) : wrapInt64 x = x := by
  unfold wrapInt64
  unfold minInt64 at h1
  unfold maxInt64 at h2
  norm_num at h1 h2 ⊢
  omega

theorem mapSet_same {α : Type} (m : String → Option α) (k : String) (v : α) :
    mapSet m k v k = some v := by
  simp [mapSet]

theorem mapSet_other {α : Type} (m : String → Option α) (k k' : String) (v : α) (h : k' ≠ k) :
    mapSet m k v k' = m k' := by
  simp [mapSet, h]

/-- One `/init` call for a registered job: the answer carries the counter's
value before the call, and the counter is incremented. -/
theorem initWorker_known (s : Server) (uid : String) (jd : JobDetails)
    (h : s.jobDetailsMap uid = some jd) :
    initWorker s (initRequest uid) =
      { server :=
          { s with jobDetailsMap := mapSet s.jobDetailsMap uid { jd with RunningWorkers := wrapInt64 (jd.RunningWorkers + 1) } }
        out := initAnswer jd jd.RunningWorkers
        panic := none } := by
  simp [initWorker, initRequest, h, initAnswer]

/-- Sequential `/init` calls from counter value `c`, as long as the counter
stays within the range of `int`. -/
theorem serveSeq_initWorker (uid : String) (k : Nat) :
    ∀ (s : Server) (jd : JobDetails), s.jobDetailsMap uid = some jd →
      0 ≤ jd.RunningWorkers → jd.RunningWorkers + k ≤ maxInt64 →
      (serveSeq initWorker (initRequest uid) k s).1.map Result.out
          = (List.range k).map (fun (i : Nat) => initAnswer jd (jd.RunningWorkers + (i : Int)))
        ∧ (∀ res ∈ (serveSeq initWorker (initRequest uid) k s).1, res.panic = none)
        ∧ (serveSeq initWorker (initRequest uid) k s).2.jobDetailsMap uid
            = some { jd with RunningWorkers := jd.RunningWorkers + k }
        ∧ (∀ u, u ≠ uid → (serveSeq initWorker (initRequest uid) k s).2.jobDetailsMap u
            = s.jobDetailsMap u)
        ∧ (serveSeq initWorker (initRequest uid) k s).2.files = s.files := by
  induction k with
  | zero =>
    intro s jd h _ _
    simp [serveSeq, h]
  | succ k ih =>
    intro s jd h h0 hmax
    have hw : wrapInt64 (jd.RunningWorkers + 1) = jd.RunningWorkers + 1 := by
      apply wrapInt64_eq
      · unfold minInt64; norm_num; omega
      · push_cast at hmax; omega
    have hstep := initWorker_known s uid jd h
    rw [hw] at hstep
    have hreg : (initWorker s (initRequest uid)).server.jobDetailsMap uid
        = some { jd with RunningWorkers := jd.RunningWorkers + 1 } := by
      rw [hstep]; exact mapSet_same _ _ _
    obtain ⟨a1, a2, a3, a4, a5⟩ := ih (initWorker s (initRequest uid)).server
      { jd with RunningWorkers := jd.RunningWorkers + 1 } hreg
      (by show 0 ≤ jd.RunningWorkers + 1; omega)
      (by show jd.RunningWorkers + 1 + (k : Int) ≤ maxInt64; push_cast at hmax; omega)
    refine ⟨?_, ?_, ?_, ?_, ?_⟩
    · simp only [serveSeq, List.map_cons, List.range_succ_eq_map, List.map_map]
      rw [a1]
      congr 1
      · rw [hstep]; simp
      · apply List.map_congr_left
        intro i _
        simp only [Function.comp, initAnswer]
        push_cast
        rw [show jd.RunningWorkers + 1 + (i : Int) = jd.RunningWorkers + ((i : Int) + 1) by ring]
    · intro res hres
      simp only [serveSeq, List.mem_cons] at hres
      rcases hres with rfl | hres
      · rw [hstep]
      · exact a2 res hres
    · simp only [serveSeq]
      rw [a3]
      simp only [Option.some.injEq]
      push_cast
      rw [show jd.RunningWorkers + 1 + (k : Int) = jd.RunningWorkers + ((k : Int) + 1) by ring]
    · intro u hu
      simp only [serveSeq]
      rw [a4 u hu, hstep]
      exact mapSet_other _ _ _ _ hu
    · simp only [serveSeq]
      rw [a5, hstep]

/-- C1: for a registered job whose counter RunningWorkers is 0 and whose
TotalWorkers is N, and every k ≤ N, k sequential initWorker calls answer with
workerId 0, 1, ..., k-1 in that order, each answer carrying nWorkers = N and the
job's InputFolderPath, none panics, and the counter is k afterwards. -/
theorem initWorker_sequential_indices (s : Server) (uid : String) (jd : JobDetails) (k : Nat)
    (hreg : s.jobDetailsMap uid = some jd)
    (hfresh : jd.RunningWorkers = 0)
    (hint : jd.TotalWorkers ≤ maxInt64)
    (hk : (k : Int) ≤ jd.TotalWorkers) :
    (serveSeq initWorker (initRequest uid) k s).1.map Result.out
        = (List.range k).map (fun (i : Nat) =>
            [ Effect.setHeader "Content-Type" "application/json",
              Effect.encodeJSON { WorkerId := (i : Int)
                                  TotalWorkers := jd.TotalWorkers
                                  InputFolderPath := jd.InputFolderPath } ])
      ∧ (∀ res ∈ (serveSeq initWorker (initRequest uid) k s).1, res.panic = none)
      ∧ counter (serveSeq initWorker (initRequest uid) k s).2 uid = some (k : Int) := by
  obtain ⟨a1, a2, a3, _, _⟩ := serveSeq_initWorker uid k s jd hreg (by omega) (by omega)
  refine ⟨?_, a2, ?_⟩
  · rw [a1]
    apply List.map_congr_left
    intro i _
    simp [initAnswer, hfresh]
  · simp [counter, a3, hfresh]

/-! ## Properties of the chunk merge -/

theorem IndexByte_ge (b : Bytes) (c : UInt8) : -1 ≤ IndexByte b c := by
  induction b with
  | nil => simp [IndexByte]
  | cons x xs ih =>
    simp only [IndexByte]
    split_ifs <;> omega

theorem IndexByte_not_mem (b : Bytes) (c : UInt8) (h : c ∉ b) : IndexByte b c = -1 := by
  induction b with
  | nil => simp [IndexByte]
  | cons x xs ih =>
    simp only [List.mem_cons, not_or] at h
    have hx : ¬ x = c := fun e => h.1 e.symm
    simp [IndexByte, hx, ih h.2]

theorem IndexByte_mem (b : Bytes) (c : UInt8) (h : c ∈ b) : 0 ≤ IndexByte b c := by
  induction b with
  | nil => simp at h
  | cons x xs ih =>
    simp only [IndexByte]
    by_cases hx : x = c
    · simp [hx]
    · have hm : c ∈ xs := by
        rcases List.mem_cons.mp h with e | e
        · exact absurd e.symm hx
        · exact e
      have := ih hm
      simp only [hx, if_false]
      split_ifs <;> omega

theorem dropWhile_ne_newline (x : UInt8) (xs : Bytes) (hx : ¬ x = 10) :
    List.dropWhile (fun y => y != 10) (x :: xs) = List.dropWhile (fun y => y != 10) xs := by
  simp [List.dropWhile_cons, hx]

/-- The slice taken by the code is the stripping rule of the specification. -/
theorem sliceFrom_IndexByte (chunk : Bytes) :
    sliceFrom chunk (IndexByte chunk 10 + 1) = dropHeaderLine chunk := by
  induction chunk with
  | nil => simp [sliceFrom, IndexByte, dropHeaderLine]
  | cons x xs ih =>
    by_cases hx : x = 10
    · subst hx
      simp [sliceFrom, IndexByte, dropHeaderLine, List.dropWhile]
    · by_cases hm : (10 : UInt8) ∈ xs
      · have h0 := IndexByte_mem xs 10 hm
        have hlt : ¬ IndexByte xs 10 < 0 := by omega
        have hne : (10 : UInt8) ≠ x := fun e => hx e.symm
        have hmem : (10 : UInt8) ∈ x :: xs := List.mem_cons_of_mem _ hm
        have e1 : (IndexByte xs 10 + 1 + 1).toNat = (IndexByte xs 10 + 1).toNat + 1 := by omega
        have ih2 : List.drop (IndexByte xs 10 + 1).toNat xs = dropHeaderLine xs := ih
        simp only [dropHeaderLine, hm, if_true] at ih2
        simp only [sliceFrom, IndexByte, hx, if_false, hlt, dropHeaderLine, hmem, if_true, e1,
          List.drop_succ_cons, ih2, dropWhile_ne_newline x xs hx]
      · have hmem : (10 : UInt8) ∉ x :: xs := by
          simp only [List.mem_cons, not_or]
          exact ⟨fun e => hx e.symm, hm⟩
        rw [IndexByte_not_mem _ _ hmem]
        simp [sliceFrom, dropHeaderLine, hmem]

theorem dropHeaderLine_header (h b : Bytes) (hh : (10 : UInt8) ∉ h) :
    dropHeaderLine (h ++ 10 :: b) = b := by
  have hmem : (10 : UInt8) ∈ h ++ 10 :: b := by simp
  simp only [dropHeaderLine, hmem, if_true]
  induction h with
  | nil => simp [List.dropWhile]
  | cons x xs ih =>
    simp only [List.mem_cons, not_or] at hh
    have hx : ¬ x = 10 := fun e => hh.1 e.symm
    have hm2 : (10 : UInt8) ∈ xs ++ 10 :: b := by simp
    rw [List.cons_append, dropWhile_ne_newline x _ hx]
    exact ih hh.2 hm2

/-- What one well-formed submission does: the artifact afterwards is the prior
content followed by the chunk, header-stripped when the artifact existed. -/
theorem writeChunk_chunkRequest (s : Server) (uid : String) (chunk : Bytes) :
    writeChunk s (chunkRequest uid chunk) =
      { server :=
          { s with files := appendFile s.files (artifactPath uid) (if (s.files (artifactPath uid)).isSome then dropHeaderLine chunk else chunk) }
        out := []
        panic := none } := by
  simp [writeChunk, chunkRequest, artifactPath, sliceFrom_IndexByte]

/-- Submissions to an artifact that already exists append the bodies only. -/
theorem serveAll_writeChunk_existing (uid : String) (h : Bytes) (hh : (10 : UInt8) ∉ h)
    (bodies : List Bytes) :
    ∀ (s : Server) (c : Bytes), s.files (artifactPath uid) = some c →
      (serveAll writeChunk (bodies.map (fun b => chunkRequest uid (h ++ 10 :: b))) s).2.files
          (artifactPath uid) = some (c ++ bodies.flatten) := by
  induction bodies with
  | nil => intro s c hc; simp [serveAll, hc]
  | cons b bs ih =>
    intro s c hc
    simp only [List.map_cons, serveAll, List.flatten_cons]
    rw [writeChunk_chunkRequest]
    have hnext : (appendFile s.files (artifactPath uid)
        (if (s.files (artifactPath uid)).isSome then dropHeaderLine (h ++ 10 :: b) else h ++ 10 :: b))
        (artifactPath uid) = some (c ++ b) := by
      simp [appendFile, mapSet, hc, dropHeaderLine_header h b hh]
    rw [ih _ (c ++ b) hnext, List.append_assoc]

/-- C2: for a header line h without a newline byte and a non-empty list of
bodies b_1..b_n, submitting the chunks h+"\n"+b_i in order through writeChunk
for a job whose artifact does not exist yet leaves an artifact whose content is
exactly h+"\n"+b_1+...+b_n. -/
theorem writeChunk_merge_header_once (s : Server) (uid : String) (h : Bytes) (bodies : List Bytes)
    (hh : (10 : UInt8) ∉ h) (hne : bodies ≠ [])
    (habsent : s.files (artifactPath uid) = none) :
    (serveAll writeChunk (bodies.map (fun b => chunkRequest uid (h ++ 10 :: b))) s).2.files
        (artifactPath uid) = some (h ++ 10 :: bodies.flatten) := by
  cases bodies with
  | nil => exact absurd rfl hne
  | cons b bs =>
    simp only [List.map_cons, serveAll, List.flatten_cons]
    rw [writeChunk_chunkRequest]
    have hnext : (appendFile s.files (artifactPath uid)
        (if (s.files (artifactPath uid)).isSome then dropHeaderLine (h ++ 10 :: b) else h ++ 10 :: b))
        (artifactPath uid) = some (h ++ 10 :: b) := by
      simp [appendFile, mapSet, habsent]
    rw [serveAll_writeChunk_existing uid h hh bs _ (h ++ 10 :: b) hnext]
    simp

/-- Witness of C2: "h\na\n" then "h\nb\n" yields "h\na\nb\n". -/
theorem writeChunk_merge_header_once_witness :
    (serveAll writeChunk
        [chunkRequest "j1" (ascii "h\na\n"), chunkRequest "j1" (ascii "h\nb\n")] Server.init).2.files
      (artifactPath "j1") = some (ascii "h\na\nb\n") :=
  writeChunk_merge_header_once Server.init "j1" (ascii "h") [ascii "a\n", ascii "b\n"]
    (by decide) (by simp) rfl

/-- C10: a chunk without a newline byte is whole content: the artifact afterwards
is the prior content (empty if absent) followed by the entire chunk.  For every
chunk and artifact state the prior content starts the new content, and the
appended bytes are the chunk with everything up to and including its first
newline removed exactly when the artifact already existed. -/
theorem writeChunk_appends (s : Server) (uid : String) (chunk : Bytes) :
    ((10 : UInt8) ∉ chunk →
        (writeChunk s (chunkRequest uid chunk)).server.files (artifactPath uid)
          = some ((s.files (artifactPath uid)).getD [] ++ chunk))
      ∧ (writeChunk s (chunkRequest uid chunk)).server.files (artifactPath uid)
          = some ((s.files (artifactPath uid)).getD [] ++
              (if (s.files (artifactPath uid)).isSome then dropHeaderLine chunk else chunk))
      ∧ (∀ c, (writeChunk s (chunkRequest uid chunk)).server.files (artifactPath uid) = some c →
          (s.files (artifactPath uid)).getD [] <+: c) := by
  rw [writeChunk_chunkRequest]
  refine ⟨?_, ?_, ?_⟩
  · intro hno
    simp [appendFile, mapSet, dropHeaderLine, hno]
  · simp [appendFile, mapSet]
  · intro c hc
    simp only [appendFile, mapSet, if_true, Option.some.injEq] at hc
    rw [← hc]
    exact List.prefix_append _ _

/-- Witness of C10: the chunk "abc" submitted to an artifact holding "h\n". -/
theorem writeChunk_appends_witness :
    (writeChunk { Server.init with files := mapSet Server.init.files (artifactPath "j1") (ascii "h\n") }
        (chunkRequest "j1" (ascii "abc"))).server.files (artifactPath "j1")
      = some (ascii "h\nabc") :=
  (writeChunk_appends { Server.init with files := mapSet Server.init.files (artifactPath "j1") (ascii "h\n") }
    "j1" (ascii "abc")).1 (by decide)

/-- Counterexample to C3: the job has TotalWorkers = 2, yet the third initWorker
call is answered like the others, with workerId 2, and leaves the counter at 3,
above TotalWorkers. -/
theorem initWorker_third_call_not_rejected :
    (serveSeq initWorker (initRequest "j1") 3 demoServer).1.map Result.out
        = [initAnswer demoJob 0, initAnswer demoJob 1, initAnswer demoJob 2]
      ∧ (serveSeq initWorker (initRequest "j1") 3 demoServer).1.map Result.panic = [none, none, none]
      ∧ counter (serveSeq initWorker (initRequest "j1") 3 demoServer).2 "j1" = some 3
      ∧ ¬ ((3 : Int) ≤ demoJob.TotalWorkers) := by
  refine ⟨?_, ?_, ?_, ?_⟩ <;> decide

/-- C3 as amended: initWorker has no capacity check.  After m sequential calls
for a freshly created job (m below the largest int) the counter is m, so it is
never negative, and it is within TotalWorkers only while m ≤ TotalWorkers; the
next call, in particular the (N+1)-th for TotalWorkers = N, succeeds with
workerId m and leaves the counter at m + 1. -/
theorem initWorker_counter_counts_calls (s : Server) (uid : String) (jd : JobDetails) (m : Nat)
    (hreg : s.jobDetailsMap uid = some jd)
    (hfresh : jd.RunningWorkers = 0)
    (hm : (m : Int) < maxInt64) :
    counter (serveSeq initWorker (initRequest uid) m s).2 uid = some (m : Int)
      ∧ (∀ c, counter (serveSeq initWorker (initRequest uid) m s).2 uid = some c →
          0 ≤ c ∧ (c ≤ jd.TotalWorkers ↔ (m : Int) ≤ jd.TotalWorkers))
      ∧ (initWorker (serveSeq initWorker (initRequest uid) m s).2 (initRequest uid)).out
          = [ Effect.setHeader "Content-Type" "application/json",
              Effect.encodeJSON { WorkerId := (m : Int)
                                  TotalWorkers := jd.TotalWorkers
                                  InputFolderPath := jd.InputFolderPath } ]
      ∧ (initWorker (serveSeq initWorker (initRequest uid) m s).2 (initRequest uid)).panic = none
      ∧ counter (initWorker (serveSeq initWorker (initRequest uid) m s).2 (initRequest uid)).server uid
          = some ((m : Int) + 1) := by
  obtain ⟨_, _, a3, _, _⟩ := serveSeq_initWorker uid m s jd hreg (by omega) (by omega)
  have hc : counter (serveSeq initWorker (initRequest uid) m s).2 uid = some (m : Int) := by
    simp [counter, a3, hfresh]
  have hw : wrapInt64 ((m : Int) + 1) = (m : Int) + 1 := by
    apply wrapInt64_eq
    · unfold minInt64; norm_num; omega
    · omega
  refine ⟨hc, ?_, ?_, ?_, ?_⟩
  · intro c hc'
    rw [hc] at hc'
    cases hc'
    exact ⟨by omega, Iff.rfl⟩
  · rw [initWorker_known _ uid _ a3]
    simp [initAnswer, hfresh]
  · rw [initWorker_known _ uid _ a3]
  · rw [initWorker_known _ uid _ a3]
    simp [counter, mapSet, hfresh, hw]

/-- Witness of the amended C3: two calls for the two-worker job, then the third. -/
theorem initWorker_counter_counts_calls_witness :
    counter (serveSeq initWorker (initRequest "j1") 2 demoServer).2 "j1" = some 2
      ∧ counter (initWorker (serveSeq initWorker (initRequest "j1") 2 demoServer).2
          (initRequest "j1")).server "j1" = some 3 := by
  have h := initWorker_counter_counts_calls demoServer "j1" demoJob 2 rfl rfl (by decide)
  exact ⟨h.1, h.2.2.2.2⟩

/-- Witness of C1: two calls for the two-worker job. -/
theorem initWorker_sequential_indices_witness :
    (serveSeq initWorker (initRequest "j1") 2 demoServer).1.map Result.out
        = [initAnswer demoJob 0, initAnswer demoJob 1]
      ∧ counter (serveSeq initWorker (initRequest "j1") 2 demoServer).2 "j1" = some 2 := by
  have h := initWorker_sequential_indices demoServer "j1" demoJob 2 rfl rfl (by decide) (by decide)
  exact ⟨h.1, h.2.2⟩

/-! ## Unknown job identifiers -/

theorem artifactPath_injective (u v : String) (h : artifactPath u = artifactPath v) : u = v := by
  unfold artifactPath at h
  have hd := congrArg String.data h
  simp only [String.data_append, List.append_assoc] at hd
  have h1 := List.append_cancel_left hd
  have h2 := List.append_cancel_right h1
  exact String.ext h2

/-- Counterexample to C4: with an empty registry, initWorker for the
unregistered uid "k3x9q0ab7z" panics on the nil job record, and writeChunk for
it answers without any error and creates its artifact. -/
theorem unknown_uid_is_not_NotFound :
    isGeneratedUid "k3x9q0ab7z" = true
      ∧ (initWorker Server.init (initRequest "k3x9q0ab7z")).panic
        = some "invalid memory address or nil pointer dereference"
      ∧ (writeChunk Server.init (chunkRequest "k3x9q0ab7z" (ascii "h\na\n"))).out = []
      ∧ (writeChunk Server.init (chunkRequest "k3x9q0ab7z" (ascii "h\na\n"))).panic = none
      ∧ Server.init.files (artifactPath "k3x9q0ab7z") = none
      ∧ (writeChunk Server.init (chunkRequest "k3x9q0ab7z" (ascii "h\na\n"))).server.files
          (artifactPath "k3x9q0ab7z") = some (ascii "h\na\n") := by
  refine ⟨?_, ?_, ?_, ?_, ?_, ?_⟩ <;> decide

/-- C4 as amended: writeChunk does not consult the registry.  For a uid that is
not registered and has the shape of the identifiers generateUid returns (ten
characters among a-z and 0-9, so that it names a file directly in the output
directory), with the output directory present and writable, it neither panics
nor answers with an error, leaves the registry as it is, and appends to the
artifact of that uid as for a registered one (creating it when absent); the
artifact of every other identifier of that shape is untouched. -/
theorem writeChunk_unknown_uid (s : Server) (uid : String) (chunk : Bytes)
    (_hunknown : s.jobDetailsMap uid = none)
    (_hshape : isGeneratedUid uid = true) :
    (writeChunk s (chunkRequest uid chunk)).panic = none
      ∧ (writeChunk s (chunkRequest uid chunk)).out = []
      ∧ (writeChunk s (chunkRequest uid chunk)).server.jobDetailsMap = s.jobDetailsMap
      ∧ (writeChunk s (chunkRequest uid chunk)).server.files (artifactPath uid)
          = some ((s.files (artifactPath uid)).getD [] ++
              (if (s.files (artifactPath uid)).isSome then dropHeaderLine chunk else chunk))
      ∧ (∀ other, isGeneratedUid other = true → other ≠ uid →
          (writeChunk s (chunkRequest uid chunk)).server.files (artifactPath other)
            = s.files (artifactPath other)) := by
  rw [writeChunk_chunkRequest]
  refine ⟨rfl, rfl, rfl, ?_, ?_⟩
  · simp [appendFile, mapSet]
  · intro other _ hne
    have hp : artifactPath other ≠ artifactPath uid :=
      fun h => hne (artifactPath_injective other uid h)
    simp [appendFile, mapSet, hp]

/-- Witness of the amended C4: the empty registry and the uid "k3x9q0ab7z". -/
theorem writeChunk_unknown_uid_witness :
    (writeChunk Server.init (chunkRequest "k3x9q0ab7z" (ascii "h\na\n"))).server.files
        (artifactPath "k3x9q0ab7z") = some (ascii "h\na\n") :=
  (writeChunk_unknown_uid Server.init "k3x9q0ab7z" (ascii "h\na\n") rfl (by decide)).2.2.2.1

/-! ## Properties of the completion monitor -/

theorem uploadToCDrive_call (env : Env) (s : Server) (l c a : String) :
    (uploadToCDrive env s l c a).1 = [Effect.uploadToCDrive l c a] := by
  unfold uploadToCDrive
  split
  · rfl
  · split <;> rfl

/-- The specification's terminal condition, spelled out on the condition list. -/
theorem reportsComplete_iff (e : WatchEvent) :
    reportsComplete e = true ↔
      ∃ c rest, e.Object.Status.Conditions = c :: rest ∧ c.CondType = "Complete" := by
  unfold reportsComplete
  cases h : e.Object.Status.Conditions with
  | nil => simp
  | cons c rest => simp

/-- The test of the loop (api.go, line 178) is the specification's terminal
condition. -/
theorem firstIsComplete_eq_reportsComplete (e : WatchEvent) :
    firstIsComplete e.Object.Status.Conditions = reportsComplete e := by
  unfold reportsComplete firstIsComplete
  cases h : e.Object.Status.Conditions with
  | nil => simp
  | cons c rest =>
    by_cases hc : c.CondType = "Complete" <;> simp [hc]

theorem uptoFirstTerminal_cons (e : WatchEvent) (rest : List WatchEvent) :
    uptoFirstTerminal (e :: rest) =
      if reportsComplete e then [e] else e :: uptoFirstTerminal rest := by
  unfold uptoFirstTerminal
  by_cases h : reportsComplete e = true
  · simp [List.takeWhile_cons, List.find?_cons, h]
  · simp [List.takeWhile_cons, List.find?_cons, h]

theorem uptoFirstTerminal_none (events : List WatchEvent)
    (h : ∀ x ∈ events, reportsComplete x = false) :
    uptoFirstTerminal events = events ∧ events.any (fun e => reportsComplete e) = false := by
  induction events with
  | nil => simp [uptoFirstTerminal]
  | cons e rest ih =>
    have he : reportsComplete e = false := h e (List.mem_cons_self _ _)
    obtain ⟨i1, i2⟩ := ih (fun x hx => h x (List.mem_cons_of_mem _ hx))
    rw [uptoFirstTerminal_cons]
    simp [he, i1, i2]

theorem uptoFirstTerminal_split (pre : List WatchEvent) (e : WatchEvent) (post : List WatchEvent)
    (hpre : ∀ x ∈ pre, reportsComplete x = false) (he : reportsComplete e = true) :
    uptoFirstTerminal (pre ++ e :: post) = pre ++ [e]
      ∧ (pre ++ e :: post).any (fun x => reportsComplete x) = true := by
  induction pre with
  | nil =>
    rw [List.nil_append, uptoFirstTerminal_cons]
    simp [he]
  | cons x xs ih =>
    have hx : reportsComplete x = false := hpre x (List.mem_cons_self _ _)
    obtain ⟨i1, i2⟩ := ih (fun y hy => hpre y (List.mem_cons_of_mem _ hy))
    rw [List.cons_append, uptoFirstTerminal_cons]
    simp [hx, i1, he]

/-- The trace of the watch loop for a registered job. -/
theorem watchLoop_trace (env : Env) (s : Server) (uid : String) (jd : JobDetails)
    (events : List WatchEvent) :
    (watchLoop env s uid (some jd) events).1 =
      forwardedLines env (uptoFirstTerminal events)
        ++ (if events.any (fun e => reportsComplete e) then
              [Effect.uploadToCDrive ("/storage/output/" ++ uid ++ ".csv") jd.OutputFolderPath jd.accessToken]
            else []) := by
  induction events with
  | nil => simp [watchLoop, uptoFirstTerminal, forwardedLines]
  | cons e rest ih =>
    rw [uptoFirstTerminal_cons]
    have hfc := firstIsComplete_eq_reportsComplete e
    by_cases h : reportsComplete e = true
    · rw [h] at hfc
      simp [watchLoop, h, hfc, forwardedLines, uploadToCDrive_call]
    · have h' : reportsComplete e = false := by simpa using h
      rw [h'] at hfc
      simp only [watchLoop, hfc, h', ih, List.any_cons, Bool.false_or]
      simp [forwardedLines]

theorem forwardedLines_no_upload (env : Env) (events : List WatchEvent) :
    (forwardedLines env events).filter Effect.isUpload = [] := by
  induction events with
  | nil => rfl
  | cons e rest ih =>
    simp only [forwardedLines, List.map_cons, List.flatten_cons] at ih ⊢
    simp [List.filter_append, ih, Effect.isUpload, List.filter_cons]

/-- C5: for every finite sequence of events received by jobStatus for a
registered job uid, the trace is (after the stream headers) one forwarded line,
flushed, per event, in the order received, for exactly the events up to and
including the first one whose condition list is non-empty with a first entry of
type "Complete" (all events when there is none), followed by exactly one
uploadToCDrive call with "/storage/output/"+uid+".csv", the job's
OutputFolderPath and accessToken when there is such an event, and by no upload
otherwise; so there is at most one upload.  The terminal condition reportsComplete
is stated on the condition list, apart from the test of the loop: an event whose
first condition has another type, or whose list is empty, is forwarded and the
watch goes on. -/
theorem jobStatus_trace (env : Env) (s : Server) (uid : String) (jd : JobDetails)
    (hcfg : env.clusterConfigOk = true) (hwatch : env.watchOk = true)
    (hreg : s.jobDetailsMap uid = some jd) :
    (jobStatus env s uid).1 =
        streamHeaders
          ++ forwardedLines env (uptoFirstTerminal env.events)
          ++ (if env.events.any (fun e => reportsComplete e) then
                [Effect.uploadToCDrive ("/storage/output/" ++ uid ++ ".csv") jd.OutputFolderPath jd.accessToken]
              else [])
      ∧ ((jobStatus env s uid).1.filter Effect.isUpload).length ≤ 1
      ∧ (∀ e : WatchEvent, reportsComplete e = true ↔
          ∃ c rest, e.Object.Status.Conditions = c :: rest ∧ c.CondType = "Complete")
      ∧ ((∀ x ∈ env.events, reportsComplete x = false) →
          (jobStatus env s uid).1 = streamHeaders ++ forwardedLines env env.events)
      ∧ (∀ (pre : List WatchEvent) (e : WatchEvent) (post : List WatchEvent),
          env.events = pre ++ e :: post → (∀ x ∈ pre, reportsComplete x = false) →
          reportsComplete e = true →
          (jobStatus env s uid).1 =
            streamHeaders ++ forwardedLines env (pre ++ [e])
              ++ [Effect.uploadToCDrive ("/storage/output/" ++ uid ++ ".csv") jd.OutputFolderPath jd.accessToken]) := by
  have ht : (jobStatus env s uid).1 =
        streamHeaders
          ++ forwardedLines env (uptoFirstTerminal env.events)
          ++ (if env.events.any (fun e => reportsComplete e) then
                [Effect.uploadToCDrive ("/storage/output/" ++ uid ++ ".csv") jd.OutputFolderPath jd.accessToken]
              else []) := by
    simp [jobStatus, hcfg, hwatch, hreg, watchLoop_trace, List.append_assoc]
  refine ⟨ht, ?_, reportsComplete_iff, ?_, ?_⟩
  · rw [ht, List.filter_append, List.filter_append, forwardedLines_no_upload]
    split_ifs <;> simp [streamHeaders, Effect.isUpload, List.filter_cons]
  · intro hnone
    obtain ⟨h1, h2⟩ := uptoFirstTerminal_none env.events hnone
    rw [ht, h1, h2]
    simp
  · intro pre e post hev hpre he
    obtain ⟨h1, h2⟩ := uptoFirstTerminal_split pre e post hpre he
    rw [ht, hev, h1, h2]
    simp

/-- Witness of C5: an event whose first condition is "Failed", an event whose
condition "Complete" is not the first, the terminal event, and one more event
that is never handled. -/
theorem jobStatus_trace_witness :
    (jobStatus (demoEnv [eventOf "profilefunc-alice-j1" [{ CondType := "Failed", Status := "True" }],
                         eventOf "profilefunc-alice-j1" [{ CondType := "Suspended", Status := "True" },
                                                         { CondType := "Complete", Status := "True" }],
                         eventOf "profilefunc-alice-j1" [{ CondType := "Complete", Status := "True" }],
                         eventOf "profilefunc-alice-j1" [{ CondType := "Failed", Status := "True" }]])
        demoServer "j1").1
      = streamHeaders
          ++ [Effect.write "Failed\n", Effect.flush,
              Effect.write "Suspended,Complete\n", Effect.flush,
              Effect.write "Complete\n", Effect.flush]
          ++ [Effect.uploadToCDrive "/storage/output/j1.csv" "users/alice/out" "tok"]
      ∧ firstIsComplete [{ CondType := "Failed", Status := "True" }] = false
      ∧ firstIsComplete [{ CondType := "Suspended", Status := "True" },
                         { CondType := "Complete", Status := "True" }] = false
      ∧ firstIsComplete [{ CondType := "Complete", Status := "True" }] = true :=
  ⟨(jobStatus_trace (demoEnv [eventOf "profilefunc-alice-j1" [{ CondType := "Failed", Status := "True" }],
                         eventOf "profilefunc-alice-j1" [{ CondType := "Suspended", Status := "True" },
                                                         { CondType := "Complete", Status := "True" }],
                         eventOf "profilefunc-alice-j1" [{ CondType := "Complete", Status := "True" }],
                         eventOf "profilefunc-alice-j1" [{ CondType := "Failed", Status := "True" }]])
    demoServer "j1" demoJob rfl rfl rfl).1, by decide, by decide, by decide⟩

/-- C6, the code at the failing input: the monitor of job j1 (workload
"profilefunc-alice-j1") receives a "Complete" condition of the workload
"profilefunc-bob-zz" only.  It calls uploadToCDrive for j1 and stops: the later
event of j1 itself is not forwarded.  The artifact of j1 does not exist yet, so
the upload panics. -/
theorem jobStatus_completes_on_other_workload :
    (eventOf "profilefunc-bob-zz" [{ CondType := "Complete", Status := "True" }]).Object.Name
        ≠ demoJob.JobName
      ∧ jobStatus (demoEnv [eventOf "profilefunc-bob-zz" [{ CondType := "Complete", Status := "True" }],
                            eventOf "profilefunc-alice-j1" [{ CondType := "Running", Status := "True" }]])
          demoServer "j1"
        = (streamHeaders
            ++ [Effect.write "Complete\n", Effect.flush,
                Effect.uploadToCDrive "/storage/output/j1.csv" "users/alice/out" "tok"],
           some "open: no such file or directory") := by
  refine ⟨?_, ?_⟩ <;> decide

/-! ## Properties of concurrent submissions -/

theorem appendFile_createFile (files : String → Option Bytes) (path : String) (b : Bytes) :
    appendFile (createFile files path) path b = appendFile files path b := by
  funext k
  unfold appendFile createFile
  cases h : files path with
  | none => by_cases hk : k = path <;> simp [mapSet, hk]
  | some c => simp [h]

/-- The three steps of one submission, with nothing in between, are `writeChunk`. -/
theorem step_step_eq_writeChunk (s : Server) (uid : String) (chunk : Bytes) :
    (Submission.step
        (Submission.step
          (Submission.step s.files { uid := uid, chunk := chunk, pc := Pc.beforeStat }).1
          (Submission.step s.files { uid := uid, chunk := chunk, pc := Pc.beforeStat }).2).1
        (Submission.step
          (Submission.step s.files { uid := uid, chunk := chunk, pc := Pc.beforeStat }).1
          (Submission.step s.files { uid := uid, chunk := chunk, pc := Pc.beforeStat }).2).2).1
      = (writeChunk s (chunkRequest uid chunk)).server.files
    ∧ (Submission.step
        (Submission.step
          (Submission.step s.files { uid := uid, chunk := chunk, pc := Pc.beforeStat }).1
          (Submission.step s.files { uid := uid, chunk := chunk, pc := Pc.beforeStat }).2).1
        (Submission.step
          (Submission.step s.files { uid := uid, chunk := chunk, pc := Pc.beforeStat }).1
          (Submission.step s.files { uid := uid, chunk := chunk, pc := Pc.beforeStat }).2).2).2.pc
      = Pc.returned := by
  simp [Submission.step, writeChunk, chunkRequest, appendFile_createFile]

/-- C7, the code at the failing input: two submissions "h\na\n" and "h\nb\n" for
job j1, whose artifact does not exist; both run `os.Stat` before either opens
and writes.  Both keep their header: the artifact is "h\na\nh\nb\n", the header
line occurs twice and the length is 8, not 4 + 4 - 2.  Served one after the
other the same two submissions give "h\na\nb\n".  When the second submission has
created the file before the first runs `os.Stat`, and the first writes first,
the artifact is "a\nh\nb\n": the one header is not at the start. -/
theorem writeChunk_interleaved_keeps_both_headers :
    (runSchedule [0, 1, 0, 0, 1, 1]
        (Server.init.files,
          [ { uid := "j1", chunk := ascii "h\na\n", pc := Pc.beforeStat },
            { uid := "j1", chunk := ascii "h\nb\n", pc := Pc.beforeStat } ])).1 (artifactPath "j1")
        = some (ascii "h\na\nh\nb\n")
      ∧ (runSchedule [0, 1, 0, 0, 1, 1]
        (Server.init.files,
          [ { uid := "j1", chunk := ascii "h\na\n", pc := Pc.beforeStat },
            { uid := "j1", chunk := ascii "h\nb\n", pc := Pc.beforeStat } ])).2.map Submission.pc
        = [Pc.returned, Pc.returned]
      ∧ countOccurrences (ascii "h\n") (ascii "h\na\nh\nb\n") = 2
      ∧ (ascii "h\na\nh\nb\n").length ≠ (ascii "h\na\n").length + (ascii "h\nb\n").length - 2
      ∧ (runSchedule [0, 0, 0, 1, 1, 1]
        (Server.init.files,
          [ { uid := "j1", chunk := ascii "h\na\n", pc := Pc.beforeStat },
            { uid := "j1", chunk := ascii "h\nb\n", pc := Pc.beforeStat } ])).1 (artifactPath "j1")
        = some (ascii "h\na\nb\n")
      ∧ (runSchedule [1, 1, 0, 0, 0, 1]
        (Server.init.files,
          [ { uid := "j1", chunk := ascii "h\na\n", pc := Pc.beforeStat },
            { uid := "j1", chunk := ascii "h\nb\n", pc := Pc.beforeStat } ])).1 (artifactPath "j1")
        = some (ascii "a\nh\nb\n") := by
  refine ⟨?_, ?_, ?_, ?_, ?_, ?_⟩ <;> decide

/-! ## Properties of job submission and launch -/

theorem splitChars_no_sep (sep : Char) (b : List Char) (hb : sep ∉ b) :
    splitChars sep b = [b] := by
  induction b with
  | nil => rfl
  | cons c cs ih =>
    simp only [List.mem_cons, not_or] at hb
    have hc : ¬ c = sep := fun e => hb.1 e.symm
    simp [splitChars, hc, ih hb.2]

theorem splitChars_append (sep : Char) (a b : List Char) (ha : sep ∉ a) :
    splitChars sep (a ++ sep :: b) = a :: splitChars sep b := by
  induction a with
  | nil => simp [splitChars]
  | cons c cs ih =>
    simp only [List.mem_cons, not_or] at ha
    have hc : ¬ c = sep := fun e => ha.1 e.symm
    simp [splitChars, hc, ih ha.2]

/-- Splitting the header "Bearer <token>" for a token without a space. -/
theorem Split_bearer (token : String) (ht : ' ' ∉ token.toList) :
    Split ("Bearer " ++ token) ' ' = ["Bearer", token] := by
  have h1 : ("Bearer " ++ token).toList = "Bearer".toList ++ ' ' :: token.toList := by
    simp [String.toList]
  have h2 : splitChars ' ' ("Bearer".toList ++ ' ' :: token.toList)
      = "Bearer".toList :: splitChars ' ' token.toList :=
    splitChars_append ' ' _ _ (by decide)
  simp only [Split, h1, h2, splitChars_no_sep ' ' _ ht, List.map_cons, List.map_nil]
  rfl

theorem digitChar_toNat (d : Nat) (h : d < 10) : (digitChar d).toNat = 48 + d := by
  interval_cases d <;> rfl

theorem digitChar_utf8Size (d : Nat) (h : d < 10) : (digitChar d).utf8Size = 1 := by
  interval_cases d <;> rfl

theorem digitChar_not_sign (d : Nat) (h : d < 10) : digitChar d ≠ '-' ∧ digitChar d ≠ '+' := by
  interval_cases d <;> decide

theorem utf8ByteSize_go_digits (ds : List Nat) (h : ∀ d ∈ ds, d < 10) :
    String.utf8ByteSize.go (ds.map digitChar) = ds.length := by
  induction ds with
  | nil => rfl
  | cons d ds ih =>
    simp only [List.map_cons, String.utf8ByteSize.go, List.length_cons]
    rw [ih (fun x hx => h x (List.mem_cons_of_mem _ hx)),
      digitChar_utf8Size d (h d (List.mem_cons_self _ _))]

/-- The fast path of Atoi on digits computes their decimal value: with at most
18 digits the accumulator stays below 10^18 and never wraps. -/
theorem atoiFastLoop_digits (ds : List Nat) :
    ∀ (n : Nat), (∀ d ∈ ds, d < 10) → (n + 1) * 10 ^ ds.length ≤ 10 ^ 18 →
      atoiFastLoop (ds.map digitChar) (n : Int)
        = some ((ds.foldl (fun acc d => acc * 10 + d) n : Nat) : Int) := by
  induction ds with
  | nil => intro n _ _; rfl
  | cons d ds ih =>
    intro n hd hb
    have hd10 : d < 10 := hd d (List.mem_cons_self _ _)
    have hc := digitChar_toNat d hd10
    have hpos : 1 ≤ 10 ^ ds.length := Nat.one_le_pow _ _ (by norm_num)
    have hb' : (n * 10 + d + 1) * 10 ^ ds.length ≤ 10 ^ 18 := by
      have hstep : (n * 10 + d + 1) ≤ (n + 1) * 10 := by omega
      calc (n * 10 + d + 1) * 10 ^ ds.length ≤ ((n + 1) * 10) * 10 ^ ds.length :=
            Nat.mul_le_mul_right _ hstep
        _ = (n + 1) * 10 ^ (ds.length + 1) := by ring
        _ ≤ 10 ^ 18 := hb
    have hsmall : n * 10 + d < 10 ^ 18 := by
      calc n * 10 + d < (n * 10 + d + 1) * 1 := by omega
        _ ≤ (n * 10 + d + 1) * 10 ^ ds.length := Nat.mul_le_mul_left _ hpos
        _ ≤ 10 ^ 18 := hb'
    have hw : wrapInt64 ((n : Int) * 10 + ((48 + d - 48 : Nat) : Int)) = ((n * 10 + d : Nat) : Int) := by
      have e : (48 + d - 48 : Nat) = d := by omega
      rw [e]
      unfold wrapInt64
      push_cast
      norm_num at hsmall ⊢
      omega
    simp only [List.map_cons, atoiFastLoop, hc, List.foldl_cons]
    rw [if_pos (by omega), hw]
    exact ih (n * 10 + d) (fun x hx => hd x (List.mem_cons_of_mem _ hx)) hb'

/-- On a string of one to eighteen decimal digits Atoi returns the number they
write, without error. -/
theorem Atoi_digits (ds : List Nat) (hne : ds ≠ []) (hd : ∀ d ∈ ds, d < 10) (hlen : ds.length < 19) :
    Atoi (String.mk (ds.map digitChar)) = (((decimalValue ds : Nat) : Int), none) := by
  have hsize : (String.mk (ds.map digitChar)).utf8ByteSize = ds.length :=
    utf8ByteSize_go_digits ds hd
  have hpos : 0 < ds.length := List.length_pos.mpr hne
  have hb : (0 + 1) * 10 ^ ds.length ≤ 10 ^ 18 := by
    rw [Nat.zero_add, Nat.one_mul]
    exact Nat.pow_le_pow_right (by norm_num) (by omega)
  have hloop := atoiFastLoop_digits ds 0 hd hb
  cases ds with
  | nil => exact absurd rfl hne
  | cons d rest =>
    obtain ⟨h1, h2⟩ := digitChar_not_sign d (hd d (List.mem_cons_self _ _))
    unfold Atoi
    rw [hsize, if_pos ⟨hpos, hlen⟩]
    simp only [String.toList, List.map_cons, h1, h2, or_self, if_false] at hloop ⊢
    simp only [Nat.cast_zero] at hloop
    simp [hloop, decimalValue]

/-- When Atoi reports a syntax error its value is 0. -/
theorem Atoi_syntax_value (w : String) :
    (Atoi w).2 = some NumError.ErrSyntax → (Atoi w).1 = 0 := by
  unfold Atoi
  by_cases h1 : 0 < w.utf8ByteSize ∧ w.utf8ByteSize < 19
  · rw [if_pos h1]
    cases w.toList with
    | nil => simp
    | cons c cs =>
      dsimp only
      by_cases hd : (if c = '-' ∨ c = '+' then cs else c :: cs) = []
      · simp [hd]
      · rw [if_neg hd]
        cases atoiFastLoop (if c = '-' ∨ c = '+' then cs else c :: cs) 0 <;> simp
  · rw [if_neg h1]
    unfold ParseInt
    cases w.toList with
    | nil => simp
    | cons c cs =>
      dsimp only
      split_ifs <;> simp

theorem watchLoop_no_error (env : Env) (s : Server) (uid : String) (jd : Option JobDetails)
    (events : List WatchEvent) :
    (watchLoop env s uid jd events).1.filter Effect.isError = [] := by
  induction events with
  | nil => rfl
  | cons e rest ih =>
    simp only [watchLoop]
    split_ifs
    · cases jd with
      | none => simp [Effect.isError, List.filter_cons]
      | some j => simp [uploadToCDrive_call, Effect.isError, List.filter_cons]
    · simp [List.filter_append, ih, Effect.isError, List.filter_cons]

theorem jobStatus_no_error (env : Env) (s : Server) (uid : String) :
    (jobStatus env s uid).1.filter Effect.isError = [] := by
  unfold jobStatus
  split_ifs
  · simp [streamHeaders, Effect.isError, List.filter_cons]
  · simp [streamHeaders, Effect.isError, List.filter_cons]
  · simp [streamHeaders, Effect.isError, List.filter_cons, List.filter_append, watchLoop_no_error]

theorem createJobHelper_no_error (env : Env) (jd : JobDetails) :
    (createJobHelper env jd).1.filter Effect.isError = [] := by
  unfold createJobHelper
  split_ifs <;> simp [Effect.isError, List.filter_cons]

/-- Counterexample to C8: with the header "Bearer tok" and workers = "abc",
which strconv.Atoi rejects, createJob answers with no error response and
registers a job whose TotalWorkers is 0; with no Authorization header it panics
on tokens[1] instead of answering. -/
theorem createJob_accepts_unparsable_workers :
    Atoi "abc" = (0, some NumError.ErrSyntax)
      ∧ (createJob (demoEnv []) Server.init
          (createRequest "Bearer tok" "img" "in" "out" "abc")).out.filter Effect.isError = []
      ∧ (createJob (demoEnv []) Server.init
          (createRequest "Bearer tok" "img" "in" "out" "abc")).panic = none
      ∧ ((createJob (demoEnv []) Server.init
          (createRequest "Bearer tok" "img" "in" "out" "abc")).server.jobDetailsMap "j1").map
            JobDetails.TotalWorkers = some 0
      ∧ (createJob (demoEnv []) Server.init (createRequest "" "img" "in" "out" "2")).panic
          = some "index out of range [1]"
      ∧ (createJob (demoEnv []) Server.init (createRequest "" "img" "in" "out" "2")).out = [] := by
  refine ⟨?_, ?_, ?_, ?_, ?_, ?_⟩ <;> decide

/-- C8 as amended: for a POST /create request whose form parses and whose
Authorization header splits on a space into at least two tokens, createJob
answers with no error response and registers, under the generated uid, a job
whose accessToken is the second token and whose TotalWorkers is the value
strconv.Atoi returns for the workers field, its error being discarded: 0 when
Atoi reports a syntax error.  When the header is "Bearer <token>", for a token
without a space, the accessToken is <token>; when the workers field is one to
eighteen decimal digits, TotalWorkers is the number they write. -/
theorem createJob_registers (env : Env) (s : Server) (r : Request) (accessToken : String)
    (hpost : r.Method = "POST") (hparse : r.parseOk = true)
    (htok : (Split (r.Header "Authorization") ' ').get? 1 = some accessToken) :
    (createJob env s r).server.jobDetailsMap env.uid =
        some { JobName := "profilefunc-" ++ env.username ++ "-" ++ env.uid
               InputFolderPath := r.PostForm "inputFolderPath"
               OutputFolderPath := r.PostForm "outputFolderPath"
               TotalWorkers := (Atoi (r.PostForm "workers")).1
               RunningWorkers := 0
               MapperUrl := "http://profiler-" ++ env.username ++ "/"
               uid := env.uid
               imageUrl := r.PostForm "imageUrl"
               completedWorkers := 0
               accessToken := accessToken }
      ∧ (createJob env s r).out.filter Effect.isError = []
      ∧ (∀ token : String, r.Header "Authorization" = "Bearer " ++ token → ' ' ∉ token.toList →
          accessToken = token)
      ∧ (∀ ds : List Nat, ds ≠ [] → (∀ d ∈ ds, d < 10) → ds.length < 19 →
          r.PostForm "workers" = String.mk (ds.map digitChar) →
          (Atoi (r.PostForm "workers")).1 = (decimalValue ds : Nat))
      ∧ ((Atoi (r.PostForm "workers")).2 = some NumError.ErrSyntax →
          (Atoi (r.PostForm "workers")).1 = 0) := by
  refine ⟨?_, ?_, ?_, ?_, Atoi_syntax_value _⟩
  rotate_left 2
  · intro token hh ht
    rw [hh, Split_bearer token ht] at htok
    simpa using htok.symm
  · intro ds hne hd hlen hw
    rw [hw, Atoi_digits ds hne hd hlen]
  · simp only [createJob, hpost, hparse, htok, if_true, Bool.true_eq_false, if_false]
    split <;> simp [mapSet]
  · simp only [createJob, hpost, hparse, htok, if_true, Bool.true_eq_false, if_false]
    split
    · simp [createJobHelper_no_error]
    · simp only [List.filter_append, createJobHelper_no_error, jobStatus_no_error, List.append_nil]

/-- Witness of the amended C8: header "Bearer tok" and workers = "2". -/
theorem createJob_registers_witness :
    ((createJob (demoEnv []) Server.init
        (createRequest "Bearer tok" "docker.io/alice/fn" "users/alice/in" "users/alice/out" "2")).server.jobDetailsMap
          "j1") = some demoJob := by
  refine Eq.trans (createJob_registers (demoEnv []) Server.init
    (createRequest "Bearer tok" "docker.io/alice/fn" "users/alice/in" "users/alice/out" "2") "tok"
    rfl rfl (by decide)).1 ?_
  decide

theorem wrapInt32_eq_iff (x : Int) : wrapInt32 x = x ↔ -(2 ^ 31) ≤ x ∧ x < 2 ^ 31 := by
  unfold wrapInt32
  norm_num
  omega

set_option maxRecDepth 4096 in
/-- Counterexample to C9: TotalWorkers = 4294967297, the value strconv.Atoi
returns for "4294967297", gives a request with Parallelism = Completions = 1. -/
theorem createJobHelper_truncates :
    Atoi "4294967297" = (4294967297, none)
      ∧ (createJobHelper (demoEnv []) { demoJob with TotalWorkers := 4294967297 }).1
        = [Effect.jobsCreate
            { Name := "profilefunc-alice-j1"
              ContainerName := "profilefunc-alice-j1"
              Image := "docker.io/alice/fn"
              Args := ["-u", "http://profiler-alice/", "-i", "j1"]
              Env := [("COLUMBUS_ACCESS_TOKEN", "tok")]
              RestartPolicy := "Never"
              Completions := 1
              Parallelism := 1
              BackoffLimit := 5
              Status := { Conditions := [], Active := 0, Succeeded := 0, Failed := 0 } }] := by
  refine ⟨?_, ?_⟩ <;> decide

/-- C9 as amended: the workload request built by createJobHelper has name =
JobName, image = imageUrl, arguments ["-u", MapperUrl, "-i", uid], the one
environment variable COLUMBUS_ACCESS_TOKEN = accessToken, restart policy Never,
backoff limit 5, and Parallelism and Completions both equal to TotalWorkers
converted to 32 bits, which is TotalWorkers itself exactly when
-2^31 ≤ TotalWorkers < 2^31. -/
theorem createJobHelper_request (env : Env) (jd : JobDetails) (hcfg : env.clusterConfigOk = true) :
    (createJobHelper env jd).1 =
        [Effect.jobsCreate
          { Name := jd.JobName
            ContainerName := jd.JobName
            Image := jd.imageUrl
            Args := ["-u", jd.MapperUrl, "-i", jd.uid]
            Env := [("COLUMBUS_ACCESS_TOKEN", jd.accessToken)]
            RestartPolicy := "Never"
            Completions := wrapInt32 jd.TotalWorkers
            Parallelism := wrapInt32 jd.TotalWorkers
            BackoffLimit := 5
            Status := { Conditions := [], Active := 0, Succeeded := 0, Failed := 0 } }]
      ∧ (wrapInt32 jd.TotalWorkers = jd.TotalWorkers
          ↔ -(2 ^ 31) ≤ jd.TotalWorkers ∧ jd.TotalWorkers < 2 ^ 31) := by
  refine ⟨?_, wrapInt32_eq_iff _⟩
  have h5 : wrapInt32 5 = 5 := by decide
  by_cases hc : env.createOk = false <;> simp [createJobHelper, hcfg, h5, hc]

/-- Witness of the amended C9: the two-worker job. -/
theorem createJobHelper_request_witness :
    (createJobHelper (demoEnv []) demoJob).1 =
        [Effect.jobsCreate
          { Name := "profilefunc-alice-j1"
            ContainerName := "profilefunc-alice-j1"
            Image := "docker.io/alice/fn"
            Args := ["-u", "http://profiler-alice/", "-i", "j1"]
            Env := [("COLUMBUS_ACCESS_TOKEN", "tok")]
            RestartPolicy := "Never"
            Completions := 2
            Parallelism := 2
            BackoffLimit := 5
            Status := { Conditions := [], Active := 0, Succeeded := 0, Failed := 0 } }] :=
  (createJobHelper_request (demoEnv []) demoJob rfl).1

end Profiler
